import Mathlib

/-!
Verification development for the smart-attendance server.

The definitions below are shallow embeddings of the JavaScript source:

* src/models/Student.js, method isWithinAnyCenterRadius — center resolution
  (assigned-center branch and the scan over all active centers).
* src/services/geo.js — validateCoordinates.
* src/unnamed/part_000 — Student methods getCurrentTimeSlot, isAttendanceLate
  and the helper timeToMinutes.
* src/unnamed/part_002 — Attendance methods isLate (center-aware variant),
  getTimeSlot, and the pre-save status classification.
* src/models/Attendance.js — the simple isLate fallback and the pre-save hook.
* src/services/image.js — extractImageMetadata GPS strategy chain.
* src/controllers/webhookController.js — handleIncomingMessage,
  processLocationAttendance, processImageAttendance.
* src/controllers/attendanceController.js — verifyAttendance.

JavaScript numbers holding coordinates are modelled as rationals; geolib
distances (integer meters) as naturals, with the JavaScript Infinity
modelled as the value none of an optional natural. The floating-point
haversine computation inside geolib, together with the 6-decimal rounding
the source applies before calling it, is abstracted as a distance
function parameter, because every claim treated here concerns the
selection and ledger logic around it, not the trigonometry.
-/

/-- Record of a configured center, from the centers array of the settings
document (src/models/Settings.js): coordinates, radius in meters, active
flag, plus name and id used by the assigned-center lookup. -/
structure Center where
  id : String
  name : String
  latitude : Rat
  longitude : Rat
  radius : Nat
  isActive : Bool
deriving DecidableEq

/-- Result shape of isWithinAnyCenterRadius: isWithin, distance, center.
distance = none models the JavaScript Infinity; center = none models null. -/
structure GeoOutcome where
  isWithin : Bool
  distance : Option Nat
  center : Option Center
deriving DecidableEq

/-- One iteration of the scan loop in isWithinAnyCenterRadius
(src/models/Student.js lines 149-179): skip inactive centers, and replace
the best candidate when the center is a hit strictly closer than the
current minimum (an empty accumulator plays the role of minDistance =
Infinity, against which every finite distance compares smaller). -/
def scanStep (d : Center → Nat) (best : Option (Center × Nat)) (c : Center) :
    Option (Center × Nat) :=
  if c.isActive then
    match best with
    | none => if d c ≤ c.radius then some (c, d c) else none
    | some (b, m) => if d c ≤ c.radius ∧ d c < m then some (c, d c) else some (b, m)
  else best

/-- The whole scan loop over the centers array, in array order. -/
def scanCenters (d : Center → Nat) (centers : List Center) : Option (Center × Nat) :=
  centers.foldl (scanStep d) none

/-- Embedding of Student.isWithinAnyCenterRadius (src/models/Student.js
lines 92-194). d c is the geolib distance in meters from the (rounded)
user location to the (rounded) coordinates of center c. When the student
has an assigned center, the source looks it up by id or name and returns
early only when it is found AND active; otherwise control falls through
to the scan over all active centers. -/
def isWithinAnyCenterRadius (assigned : Option String) (d : Center → Nat)
    (centers : List Center) : GeoOutcome :=
  let scanned : GeoOutcome :=
    match scanCenters d centers with
    | some (c, m) => { isWithin := true, distance := some m, center := some c }
    | none => { isWithin := false, distance := none, center := none }
  match assigned with
  | some a =>
    match centers.find? (fun c => c.id == a || c.name == a) with
    | some c =>
      if c.isActive then
        { isWithin := decide (d c ≤ c.radius), distance := some (d c), center := some c }
      else scanned
    | none => scanned
  | none => scanned

/-- Embedding of geoService.validateCoordinates (src/services/geo.js):
lat in [-90, 90] and lng in [-180, 180]. -/
def validateCoordinates (lat lng : Rat) : Bool :=
  decide (-90 ≤ lat) && decide (lat ≤ 90) && decide (-180 ≤ lng) && decide (lng ≤ 180)

/-- Specification-side recursion for the scan loop: the first hit attaining
the minimum distance, processing the list from the left and keeping the
earlier candidate on ties. Proved equal to the foldl below. -/
def pickFirstMin (d : Center → Nat) : List Center → Option (Center × Nat)
  | [] => none
  | c :: l =>
    let rest := pickFirstMin d l
    if c.isActive = true ∧ d c ≤ c.radius then
      match rest with
      | none => some (c, d c)
      | some (b, m) => if d c ≤ m then some (c, d c) else some (b, m)
    else rest

theorem foldl_scanStep_some (d : Center → Nat) (l : List Center) :
    ∀ (b : Center) (m : Nat),
      l.foldl (scanStep d) (some (b, m)) =
        match pickFirstMin d l with
        | none => some (b, m)
        | some (c, m') => if m' < m then some (c, m') else some (b, m) := by
  induction l with
  | nil => intro b m; simp [pickFirstMin]
  | cons c l ih =>
    intro b m
    by_cases hact : c.isActive = true
    · by_cases hhit : d c ≤ c.radius
      · by_cases hlt : d c < m
        · have hstep : scanStep d (some (b, m)) c = some (c, d c) := by
            simp [scanStep, hact, hhit, hlt]
          rw [List.foldl_cons, hstep, ih]
          simp only [pickFirstMin, hact, hhit, and_self, if_true]
          cases hrest : pickFirstMin d l with
          | none => simp [hlt]
          | some p =>
            obtain ⟨c', m'⟩ := p
            by_cases hle : d c ≤ m'
            · simp only [hle, if_true]
              have h1 : ¬ m' < d c := by omega
              simp [h1, hlt]
            · have h2 : m' < d c := by omega
              simp only [hle, if_false]
              have h3 : m' < m := by omega
              simp [h2, h3]
        · have hstep : scanStep d (some (b, m)) c = some (b, m) := by
            simp [scanStep, hact]
            intro _
            omega
          rw [List.foldl_cons, hstep, ih]
          simp only [pickFirstMin, hact, hhit, and_self, if_true]
          cases hrest : pickFirstMin d l with
          | none =>
            have h1 : ¬ d c < m := hlt
            simp [h1]
          | some p =>
            obtain ⟨c', m'⟩ := p
            by_cases hle : d c ≤ m'
            · have h1 : ¬ d c < m := hlt
              have h2 : ¬ m' < m := by omega
              simp [hle, h1, h2]
            · simp [hle]
      · have hstep : scanStep d (some (b, m)) c = some (b, m) := by
          simp [scanStep, hact]
          intro h
          omega
        rw [List.foldl_cons, hstep, ih]
        have : ¬ (c.isActive = true ∧ d c ≤ c.radius) := by
          intro h; exact hhit h.2
        simp only [pickFirstMin, this, if_false]
    · have hstep : scanStep d (some (b, m)) c = some (b, m) := by
        simp [scanStep, hact]
      rw [List.foldl_cons, hstep, ih]
      have : ¬ (c.isActive = true ∧ d c ≤ c.radius) := by
        intro h; exact hact h.1
      simp only [pickFirstMin, this, if_false]

theorem scanCenters_eq_pickFirstMin (d : Center → Nat) (l : List Center) :
    scanCenters d l = pickFirstMin d l := by
  induction l with
  | nil => rfl
  | cons c l ih =>
    unfold scanCenters
    by_cases hact : c.isActive = true
    · by_cases hhit : d c ≤ c.radius
      · have hstep : scanStep d none c = some (c, d c) := by
          simp [scanStep, hact, hhit]
        rw [List.foldl_cons, hstep, foldl_scanStep_some]
        simp only [pickFirstMin, hact, hhit, and_self, if_true]
        cases hrest : pickFirstMin d l with
        | none => simp
        | some p =>
          obtain ⟨c', m'⟩ := p
          by_cases hle : d c ≤ m'
          · have h1 : ¬ m' < d c := by omega
            simp [hle, h1]
          · have h2 : m' < d c := by omega
            simp [hle, h2]
      · have hstep : scanStep d none c = none := by
          simp [scanStep, hact, hhit]
        rw [List.foldl_cons, hstep]
        have h3 : ¬ (c.isActive = true ∧ d c ≤ c.radius) := by
          intro h; exact hhit h.2
        simp only [pickFirstMin, h3, if_false]
        exact ih
    · have hstep : scanStep d none c = none := by
        simp [scanStep, hact]
      rw [List.foldl_cons, hstep]
      have h3 : ¬ (c.isActive = true ∧ d c ≤ c.radius) := by
        intro h; exact hact h.1
      simp only [pickFirstMin, h3, if_false]
      exact ih

theorem pickFirstMin_mem {d : Center → Nat} {l : List Center} {c : Center} {m : Nat}
    (h : pickFirstMin d l = some (c, m)) :
    c ∈ l ∧ c.isActive = true ∧ d c ≤ c.radius ∧ d c = m := by
  induction l with
  | nil => simp [pickFirstMin] at h
  | cons c0 l ih =>
    by_cases hhit : c0.isActive = true ∧ d c0 ≤ c0.radius
    · simp only [pickFirstMin, hhit, if_true] at h
      cases hrest : pickFirstMin d l with
      | none =>
        rw [hrest] at h
        simp only [Option.some.injEq, Prod.mk.injEq] at h
        obtain ⟨rfl, rfl⟩ := h
        exact ⟨List.mem_cons_self _ _, hhit.1, hhit.2, rfl⟩
      | some p =>
        obtain ⟨b, m'⟩ := p
        rw [hrest] at h
        by_cases hle : d c0 ≤ m'
        · simp only [hle, if_true, Option.some.injEq, Prod.mk.injEq] at h
          obtain ⟨rfl, rfl⟩ := h
          exact ⟨List.mem_cons_self _ _, hhit.1, hhit.2, rfl⟩
        · simp only [hle, if_false, Option.some.injEq, Prod.mk.injEq] at h
          obtain ⟨rfl, rfl⟩ := h
          obtain ⟨h1, h2, h3, h4⟩ := ih hrest
          exact ⟨List.mem_cons_of_mem _ h1, h2, h3, h4⟩
    · simp only [pickFirstMin, hhit, if_false] at h
      obtain ⟨h1, h2, h3, h4⟩ := ih h
      exact ⟨List.mem_cons_of_mem _ h1, h2, h3, h4⟩

theorem pickFirstMin_none {d : Center → Nat} {l : List Center}
    (h : pickFirstMin d l = none) :
    ∀ c2 ∈ l, ¬ (c2.isActive = true ∧ d c2 ≤ c2.radius) := by
  induction l with
  | nil => intro c2 hc2; simp at hc2
  | cons c0 l ih =>
    intro c2 hc2
    by_cases hhit : c0.isActive = true ∧ d c0 ≤ c0.radius
    · exfalso
      simp only [pickFirstMin, hhit, and_self, if_true] at h
      cases hrest : pickFirstMin d l with
      | none => rw [hrest] at h; exact Option.noConfusion h
      | some p =>
        obtain ⟨b, m'⟩ := p
        rw [hrest] at h
        by_cases hle : d c0 ≤ m'
        · simp only [hle, if_true] at h
          exact Option.noConfusion h
        · simp only [hle, if_false] at h
          exact Option.noConfusion h
    · simp only [pickFirstMin, hhit, if_false] at h
      rcases List.mem_cons.mp hc2 with h2 | h2
      · subst h2; exact hhit
      · exact ih h c2 h2

theorem pickFirstMin_min {d : Center → Nat} :
    ∀ {l : List Center} {c : Center} {m : Nat},
      pickFirstMin d l = some (c, m) →
      ∀ c2 ∈ l, c2.isActive = true → d c2 ≤ c2.radius → m ≤ d c2 := by
  intro l
  induction l with
  | nil => intro c m h; simp [pickFirstMin] at h
  | cons c0 l ih =>
    intro c m h c2 hc2 hact2 hhit2
    by_cases hhit : c0.isActive = true ∧ d c0 ≤ c0.radius
    · simp only [pickFirstMin, hhit, and_self, if_true] at h
      cases hrest : pickFirstMin d l with
      | none =>
        rw [hrest] at h
        simp only [Option.some.injEq, Prod.mk.injEq] at h
        obtain ⟨rfl, rfl⟩ := h
        rcases List.mem_cons.mp hc2 with h2 | h2
        · subst h2; rfl
        · exact absurd ⟨hact2, hhit2⟩ (pickFirstMin_none hrest c2 h2)
      | some p =>
        obtain ⟨b, m'⟩ := p
        rw [hrest] at h
        by_cases hle : d c0 ≤ m'
        · simp only [hle, if_true, Option.some.injEq, Prod.mk.injEq] at h
          obtain ⟨rfl, rfl⟩ := h
          rcases List.mem_cons.mp hc2 with h2 | h2
          · subst h2; rfl
          · have := ih hrest c2 h2 hact2 hhit2
            omega
        · simp only [hle, if_false, Option.some.injEq, Prod.mk.injEq] at h
          obtain ⟨rfl, rfl⟩ := h
          rcases List.mem_cons.mp hc2 with h2 | h2
          · subst h2; omega
          · exact ih hrest c2 h2 hact2 hhit2
    · simp only [pickFirstMin, hhit, if_false] at h
      rcases List.mem_cons.mp hc2 with h2 | h2
      · subst h2; exact absurd ⟨hact2, hhit2⟩ hhit
      · exact ih h c2 h2 hact2 hhit2

theorem pickFirstMin_first {d : Center → Nat} :
    ∀ {l : List Center} {c : Center} {m : Nat},
      pickFirstMin d l = some (c, m) →
      ∃ l1 l2, l = l1 ++ c :: l2 ∧
        ∀ c2 ∈ l1, c2.isActive = true → d c2 ≤ c2.radius → m < d c2 := by
  intro l
  induction l with
  | nil => intro c m h; simp [pickFirstMin] at h
  | cons c0 l ih =>
    intro c m h
    by_cases hhit : c0.isActive = true ∧ d c0 ≤ c0.radius
    · simp only [pickFirstMin, hhit, and_self, if_true] at h
      cases hrest : pickFirstMin d l with
      | none =>
        rw [hrest] at h
        simp only [Option.some.injEq, Prod.mk.injEq] at h
        obtain ⟨rfl, rfl⟩ := h
        exact ⟨[], l, rfl, by intro c2 hc2; simp at hc2⟩
      | some p =>
        obtain ⟨b, m'⟩ := p
        rw [hrest] at h
        by_cases hle : d c0 ≤ m'
        · simp only [hle, if_true, Option.some.injEq, Prod.mk.injEq] at h
          obtain ⟨rfl, rfl⟩ := h
          exact ⟨[], l, rfl, by intro c2 hc2; simp at hc2⟩
        · simp only [hle, if_false, Option.some.injEq, Prod.mk.injEq] at h
          obtain ⟨rfl, rfl⟩ := h
          obtain ⟨l1, l2, hsplit, hearlier⟩ := ih hrest
          refine ⟨c0 :: l1, l2, by rw [hsplit]; rfl, ?_⟩
          intro c2 hc2 hact2 hhit2
          rcases List.mem_cons.mp hc2 with h2 | h2
          · subst h2; omega
          · exact hearlier c2 h2 hact2 hhit2
    · simp only [pickFirstMin, hhit, if_false] at h
      obtain ⟨l1, l2, hsplit, hearlier⟩ := ih h
      refine ⟨c0 :: l1, l2, by rw [hsplit]; rfl, ?_⟩
      intro c2 hc2 hact2 hhit2
      rcases List.mem_cons.mp hc2 with h2 | h2
      · subst h2; exact absurd ⟨hact2, hhit2⟩ hhit
      · exact hearlier c2 h2 hact2 hhit2

theorem pickFirstMin_isSome_of_hit {d : Center → Nat} {l : List Center} {c0 : Center}
    (hc0 : c0 ∈ l) (hact : c0.isActive = true) (hhit : d c0 ≤ c0.radius) :
    ∃ c m, pickFirstMin d l = some (c, m) := by
  cases h : pickFirstMin d l with
  | none => exact absurd ⟨hact, hhit⟩ (pickFirstMin_none h c0 hc0)
  | some p =>
    obtain ⟨c1, m1⟩ := p
    exact ⟨c1, m1, rfl⟩

/-- Attendance status enumeration of the attendance schema:
pending_verification, present, late, absent. -/
inductive Status where
  | pending
  | present
  | late
  | absent
deriving DecidableEq

/-- Verification method enumeration of the attendance schema. -/
inductive VMethod where
  | auto_geo
  | manual_admin
  | image_recognition
deriving DecidableEq

/-- A clock time in HH:MM form, as produced by toTimeString().slice(0, 5)
and as stored in the configured time slots. Comparisons on zero-padded
HH:MM strings in the source are lexicographic, which on this
representation is the lexicographic order on the hour then minute. -/
structure HM where
  h : Nat
  m : Nat
deriving DecidableEq

/-- Lexicographic less-or-equal: the order the source gets from comparing
zero-padded HH:MM strings with the JavaScript operators. -/
def hmLE (a b : HM) : Bool :=
  a.h < b.h || (a.h == b.h && a.m ≤ b.m)

/-- Lexicographic strict comparison, for attendanceTime > expectedStartTime. -/
def hmLT (a b : HM) : Bool :=
  a.h < b.h || (a.h == b.h && a.m < b.m)

/-- Embedding of the helper _timeToMinutes (src/unnamed/part_000 lines
272-275 and src/unnamed/part_002 lines 349-352). -/
def timeToMinutes (t : HM) : Nat :=
  t.h * 60 + t.m

/-- One configured time slot value: the source checks times, times.start
and times.end for truthiness before using a slot, so both bounds are
optional. The JavaScript field named end is called endT here because end
is reserved in Lean. -/
structure SlotTimes where
  start : Option HM
  endT : Option HM
deriving DecidableEq

/-- A timeSlots object as iterated by Object.entries: named entries in
declaration order, where a whole entry value may be missing (null). -/
abbrev TimeSlots := List (String × Option SlotTimes)

/-- Whether one timeSlots entry is usable and contains the instant t:
the guard times and times.start and times.end followed by the inclusive
window test start less-or-equal t less-or-equal end. -/
def slotMatches (t : HM) (p : String × Option SlotTimes) : Bool :=
  match p.2 with
  | some ts =>
    match ts.start, ts.endT with
    | some s, some e => hmLE s t && hmLE t e
    | _, _ => false
  | none => false

/-- The slot-scanning loop shared by getCurrentTimeSlot
(src/unnamed/part_000 lines 210-224) and getTimeSlot (src/unnamed/part_002
lines 327-338): return the first declared entry whose window contains t,
with both bounds inclusive. -/
def findSlot (t : HM) : TimeSlots → Option (String × HM × HM)
  | [] => none
  | (name, times) :: rest =>
    match times with
    | some ts =>
      match ts.start, ts.endT with
      | some s, some e =>
        if hmLE s t && hmLE t e then some (name, s, e) else findSlot t rest
      | _, _ => findSlot t rest
    | none => findSlot t rest

/-- Result shape of getCurrentTimeSlot / getTimeSlot. -/
structure TimeSlotInfo where
  slot : Option String
  isWithinHours : Bool
  startTime : Option HM
  endTime : Option HM
deriving DecidableEq

/-- Embedding of Student.getCurrentTimeSlot (src/unnamed/part_000 lines
196-233). timeSlots = none covers the missing center / missing timeSlots
guard; otherwise the first matching declared slot is returned, and when no
slot contains t the result is slot null with isWithinHours false. -/
def getCurrentTimeSlot (timeSlots : Option TimeSlots) (t : HM) : TimeSlotInfo :=
  match timeSlots with
  | none => { slot := none, isWithinHours := false, startTime := none, endTime := none }
  | some slots =>
    match findSlot t slots with
    | some (n, s, e) =>
      { slot := some n, isWithinHours := true, startTime := some s, endTime := some e }
    | none => { slot := none, isWithinHours := false, startTime := none, endTime := none }

/-- Embedding of Attendance.getTimeSlot (src/unnamed/part_002 lines
318-346): identical scan, but the missing-center guard answers with the
slot name unknown. -/
def getTimeSlot (timeSlots : Option TimeSlots) (t : HM) : TimeSlotInfo :=
  match timeSlots with
  | none => { slot := some "unknown", isWithinHours := false, startTime := none, endTime := none }
  | some slots =>
    match findSlot t slots with
    | some (n, s, e) =>
      { slot := some n, isWithinHours := true, startTime := some s, endTime := some e }
    | none => { slot := none, isWithinHours := false, startTime := none, endTime := none }

/-- Embedding of Student.isAttendanceLate (src/unnamed/part_000 lines
236-269), default lateThreshold 15: outside all operating hours means
late; inside a slot, late exactly when the attendance minute count
strictly exceeds the slot start plus the threshold. The unreachable arm
in which isWithinHours is true but startTime is missing mirrors the
JavaScript outcome false, since comparisons against NaN are false. -/
def isAttendanceLate (timeSlots : Option TimeSlots) (t : HM)
    (lateThreshold : Nat) : Bool :=
  match timeSlots with
  | none => false
  | some _ =>
    let info := getCurrentTimeSlot timeSlots t
    if !info.isWithinHours then true
    else
      match info.startTime with
      | some s => decide (timeToMinutes t > timeToMinutes s + lateThreshold)
      | none => false

/-- The slot loop inside the center-aware Attendance.isLate
(src/unnamed/part_002 lines 295-309): the first declared slot containing
t decides lateness against its own start plus the threshold; an instant
outside every slot is late. -/
def isLateLoop (t : HM) (g : Nat) : TimeSlots → Bool
  | [] => true
  | (_, times) :: rest =>
    match times with
    | some ts =>
      match ts.start, ts.endT with
      | some s, some e =>
        if hmLE s t && hmLE t e then decide (timeToMinutes t > timeToMinutes s + g)
        else isLateLoop t g rest
      | _, _ => isLateLoop t g rest
    | none => isLateLoop t g rest

/-- Embedding of the center-aware Attendance.isLate (src/unnamed/part_002
lines 283-315), default lateThreshold 15. Without a center or without
timeSlots it falls back to the plain comparison against 09:00. -/
def isLateWithCenter (timeSlots : Option TimeSlots) (t : HM) (g : Nat) : Bool :=
  match timeSlots with
  | none => hmLT { h := 9, m := 0 } t
  | some slots => isLateLoop t g slots

/-- Embedding of Attendance.isLate from src/models/Attendance.js lines
157-160 with its default argument: the record time as HH:MM compared
lexicographically against the string 09:00, with no grace threshold. -/
def isLateDefault (t : HM) : Bool :=
  hmLT { h := 9, m := 0 } t

/-- Status assignment of the pre-save middleware of src/unnamed/part_002
(lines 375-414) for a record that is within radius with a verified
center whose configuration was found: late exactly when the center-aware
isLate says so, else present. -/
def preSaveStatusWithCenter (timeSlots : Option TimeSlots) (g : Nat) (t : HM) : Status :=
  if isLateWithCenter timeSlots t g then Status.late else Status.present

theorem hmLE_iff_minutes {x y : HM} (hx : x.m < 60) (hy : y.m < 60) :
    hmLE x y = true ↔ timeToMinutes x ≤ timeToMinutes y := by
  unfold hmLE timeToMinutes
  rcases x with ⟨xh, xm⟩
  rcases y with ⟨yh, ym⟩
  simp only [Bool.or_eq_true, Bool.and_eq_true, decide_eq_true_eq, beq_iff_eq] at *
  constructor
  · rintro (h | ⟨rfl, h⟩) <;> omega
  · intro h
    by_cases hlt : xh < yh
    · exact Or.inl hlt
    · right
      constructor <;> omega

theorem hmLT_iff_minutes {x y : HM} (hx : x.m < 60) (hy : y.m < 60) :
    hmLT x y = true ↔ timeToMinutes x < timeToMinutes y := by
  unfold hmLT timeToMinutes
  rcases x with ⟨xh, xm⟩
  rcases y with ⟨yh, ym⟩
  simp only [Bool.or_eq_true, Bool.and_eq_true, decide_eq_true_eq, beq_iff_eq] at *
  constructor
  · rintro (h | ⟨rfl, h⟩) <;> omega
  · intro h
    by_cases hlt : xh < yh
    · exact Or.inl hlt
    · right
      constructor <;> omega

theorem isLateLoop_eq_findSlot (t : HM) (g : Nat) :
    ∀ slots : TimeSlots,
      isLateLoop t g slots =
        match findSlot t slots with
        | some (_, s, _) => decide (timeToMinutes t > timeToMinutes s + g)
        | none => true := by
  intro slots
  induction slots with
  | nil => rfl
  | cons p rest ih =>
    obtain ⟨name, times⟩ := p
    cases times with
    | none => simpa [isLateLoop, findSlot] using ih
    | some ts =>
      cases hs : ts.start with
      | none => simp only [isLateLoop, findSlot, hs]; exact ih
      | some s =>
        cases he : ts.endT with
        | none => simp only [isLateLoop, findSlot, hs, he]; exact ih
        | some e =>
          by_cases hin : (hmLE s t && hmLE t e) = true
          · simp [isLateLoop, findSlot, hs, he, hin]
          · simp only [isLateLoop, findSlot, hs, he, hin, Bool.false_eq_true, if_false]
            exact ih

theorem findSlot_mem {t : HM} :
    ∀ {slots : TimeSlots} {n : String} {s e : HM},
      findSlot t slots = some (n, s, e) →
      (n, some { start := some s, endT := some e : SlotTimes }) ∈ slots ∧
        hmLE s t = true ∧ hmLE t e = true := by
  intro slots
  induction slots with
  | nil => intro n s e h; simp [findSlot] at h
  | cons p rest ih =>
    intro n s e h
    obtain ⟨name, times⟩ := p
    cases times with
    | none =>
      obtain ⟨h1, h2, h3⟩ := ih (by simpa [findSlot] using h)
      exact ⟨List.mem_cons_of_mem _ h1, h2, h3⟩
    | some ts =>
      cases hs : ts.start with
      | none =>
        simp only [findSlot, hs] at h
        obtain ⟨h1, h2, h3⟩ := ih h
        exact ⟨List.mem_cons_of_mem _ h1, h2, h3⟩
      | some s0 =>
        cases he : ts.endT with
        | none =>
          simp only [findSlot, hs, he] at h
          obtain ⟨h1, h2, h3⟩ := ih h
          exact ⟨List.mem_cons_of_mem _ h1, h2, h3⟩
        | some e0 =>
          simp only [findSlot, hs, he] at h
          by_cases hin : (hmLE s0 t && hmLE t e0) = true
          · rw [if_pos hin] at h
            simp only [Option.some.injEq, Prod.mk.injEq] at h
            obtain ⟨rfl, rfl, rfl⟩ := h
            have hts : ts = { start := some s0, endT := some e0 } := by
              cases ts; simp_all
            rw [← hts]
            simp only [Bool.and_eq_true] at hin
            exact ⟨List.mem_cons_self _ _, hin.1, hin.2⟩
          · rw [if_neg hin] at h
            obtain ⟨h1, h2, h3⟩ := ih h
            exact ⟨List.mem_cons_of_mem _ h1, h2, h3⟩

theorem findSlot_none_iff {t : HM} :
    ∀ {slots : TimeSlots},
      findSlot t slots = none ↔ ∀ p ∈ slots, slotMatches t p = false := by
  intro slots
  induction slots with
  | nil => simp [findSlot]
  | cons p rest ih =>
    obtain ⟨name, times⟩ := p
    constructor
    · intro h q hq
      rcases List.mem_cons.mp hq with h2 | h2
      · subst h2
        cases times with
        | none => rfl
        | some ts =>
          cases hs : ts.start with
          | none => simp [slotMatches, hs]
          | some s0 =>
            cases he : ts.endT with
            | none => simp [slotMatches, hs, he]
            | some e0 =>
              simp only [findSlot, hs, he] at h
              by_cases hin : (hmLE s0 t && hmLE t e0) = true
              · rw [if_pos hin] at h; exact Option.noConfusion h
              · simp [slotMatches, hs, he]
                simpa using hin
      · apply (ih.mp _) q h2
        cases times with
        | none => simpa [findSlot] using h
        | some ts =>
          cases hs : ts.start with
          | none => simp only [findSlot, hs] at h; exact h
          | some s0 =>
            cases he : ts.endT with
            | none => simp only [findSlot, hs, he] at h; exact h
            | some e0 =>
              simp only [findSlot, hs, he] at h
              by_cases hin : (hmLE s0 t && hmLE t e0) = true
              · rw [if_pos hin] at h; exact Option.noConfusion h
              · rwa [if_neg hin] at h
    · intro h
      have hhead : slotMatches t (name, times) = false :=
        h _ (List.mem_cons_self _ _)
      have htail : findSlot t rest = none :=
        ih.mpr (fun q hq => h q (List.mem_cons_of_mem _ hq))
      cases times with
      | none => simpa [findSlot] using htail
      | some ts =>
        cases hs : ts.start with
        | none => simp only [findSlot, hs]; exact htail
        | some s0 =>
          cases he : ts.endT with
          | none => rw [findSlot, hs, he]; exact htail
          | some e0 =>
            have hf : (hmLE s0 t && hmLE t e0) = false := by
              simpa [slotMatches, hs, he] using hhead
            simp only [findSlot, hs, he, hf, Bool.false_eq_true, if_false]
            exact htail

theorem findSlot_first {t : HM} :
    ∀ {slots : TimeSlots} {n : String} {s e : HM},
      findSlot t slots = some (n, s, e) →
      ∃ l1 l2, slots = l1 ++ (n, some { start := some s, endT := some e : SlotTimes }) :: l2 ∧
        ∀ p ∈ l1, slotMatches t p = false := by
  intro slots
  induction slots with
  | nil => intro n s e h; simp [findSlot] at h
  | cons p rest ih =>
    intro n s e h
    obtain ⟨name, times⟩ := p
    cases times with
    | none =>
      obtain ⟨l1, l2, hsplit, hfail⟩ := ih (by simpa [findSlot] using h)
      refine ⟨(name, none) :: l1, l2, by rw [hsplit]; rfl, ?_⟩
      intro q hq
      rcases List.mem_cons.mp hq with h2 | h2
      · subst h2; rfl
      · exact hfail q h2
    | some ts =>
      cases hs : ts.start with
      | none =>
        simp only [findSlot, hs] at h
        obtain ⟨l1, l2, hsplit, hfail⟩ := ih h
        refine ⟨(name, some ts) :: l1, l2, by rw [hsplit]; rfl, ?_⟩
        intro q hq
        rcases List.mem_cons.mp hq with h2 | h2
        · subst h2; simp [slotMatches, hs]
        · exact hfail q h2
      | some s0 =>
        cases he : ts.endT with
        | none =>
          simp only [findSlot, hs, he] at h
          obtain ⟨l1, l2, hsplit, hfail⟩ := ih h
          refine ⟨(name, some ts) :: l1, l2, by rw [hsplit]; rfl, ?_⟩
          intro q hq
          rcases List.mem_cons.mp hq with h2 | h2
          · subst h2; simp [slotMatches, hs, he]
          · exact hfail q h2
        | some e0 =>
          simp only [findSlot, hs, he] at h
          by_cases hin : (hmLE s0 t && hmLE t e0) = true
          · rw [if_pos hin] at h
            simp only [Option.some.injEq, Prod.mk.injEq] at h
            obtain ⟨rfl, rfl, rfl⟩ := h
            have hts : ts = { start := some s0, endT := some e0 } := by
              cases ts; simp_all
            exact ⟨[], rest, by rw [hts]; rfl, by intro q hq; simp at hq⟩
          · rw [if_neg hin] at h
            obtain ⟨l1, l2, hsplit, hfail⟩ := ih h
            refine ⟨(name, some ts) :: l1, l2, by rw [hsplit]; rfl, ?_⟩
            intro q hq
            rcases List.mem_cons.mp hq with h2 | h2
            · subst h2
              simp only [slotMatches, hs, he]
              simpa using hin
            · exact hfail q h2

/-- JavaScript truthiness of an optional numeric field: absent, null and
the number 0 are all falsy. -/
def truthyNum : Option Rat → Bool
  | none => false
  | some v => decide (v ≠ 0)

/-- JavaScript truthiness of an optional string field: absent, null and
the empty string are falsy. -/
def truthyStr : Option String → Bool
  | none => false
  | some s => decide (s ≠ "")

/-- Result of the dedicated GPS extraction exifr.gps, when it succeeds. -/
structure GpsRead where
  latitude : Option Rat
  longitude : Option Rat
  altitude : Option Rat
deriving DecidableEq

/-- Result of an exifr.parse call (the unfiltered and the filtered parse
share this shape): direct decimal coordinates, raw GPSLatitude and
GPSLongitude magnitudes with their hemisphere reference strings, and the
timestamp and camera tags picked by the source. -/
structure ExifRead where
  latitude : Option Rat
  longitude : Option Rat
  GPSLatitude : Option Rat
  GPSLongitude : Option Rat
  GPSLatitudeRef : Option String
  GPSLongitudeRef : Option String
  altitude : Option Rat
  DateTime : Option String
  DateTimeOriginal : Option String
  Make : Option String
  Model : Option String
  Software : Option String
deriving DecidableEq

/-- Camera block of the extracted metadata. -/
structure Camera where
  make : Option String
  model : Option String
  software : Option String
deriving DecidableEq

/-- Location block of the extracted metadata. -/
structure GpsLocation where
  latitude : Rat
  longitude : Rat
  altitude : Option Rat
deriving DecidableEq

/-- Shape of the object extractImageMetadata returns. -/
structure ImageMetadata where
  hasGPS : Bool
  location : Option GpsLocation
  timestamp : Option String
  camera : Option Camera
deriving DecidableEq

/-- Method 1 of the GPS strategy chain in extractImageMetadata
(src/services/image.js): accept the dedicated exifr.gps read only when
both coordinate values are truthy. -/
def gpsFromGpsData (g : Option GpsRead) : Option (Rat × Rat) :=
  match g with
  | none => none
  | some gd =>
    match gd.latitude, gd.longitude with
    | some la, some lo =>
      if decide (la ≠ 0) && decide (lo ≠ 0) then some (la, lo) else none
    | _, _ => none

/-- Methods 2 and 3 of the chain: direct decimal latitude and longitude
from a parse result, again guarded by truthiness of both values. -/
def gpsDirect (x : Option ExifRead) : Option (Rat × Rat) :=
  match x with
  | none => none
  | some d =>
    match d.latitude, d.longitude with
    | some la, some lo =>
      if decide (la ≠ 0) && decide (lo ≠ 0) then some (la, lo) else none
    | _, _ => none

/-- Hemisphere handling of methods 4 and 5: a reference of S or South
negates the latitude magnitude. -/
def refLatAdjust (ref : Option String) (v : Rat) : Rat :=
  if ref == some "S" || ref == some "South" then -v else v

/-- Hemisphere handling of methods 4 and 5: a reference of W or West
negates the longitude magnitude. -/
def refLngAdjust (ref : Option String) (v : Rat) : Rat :=
  if ref == some "W" || ref == some "West" then -v else v

/-- Methods 4 and 5 of the chain: raw GPSLatitude and GPSLongitude tags
with hemisphere adjustment, guarded by truthiness of both magnitudes. -/
def gpsFromTagged (x : Option ExifRead) : Option (Rat × Rat) :=
  match x with
  | none => none
  | some d =>
    match d.GPSLatitude, d.GPSLongitude with
    | some la, some lo =>
      if decide (la ≠ 0) && decide (lo ≠ 0) then
        some (refLatAdjust d.GPSLatitudeRef la, refLngAdjust d.GPSLongitudeRef lo)
      else none
    | _, _ => none

/-- The five-way else-if chain of extractImageMetadata: the first strategy
that yields both coordinates wins. -/
def extractGPSPair (gpsData : Option GpsRead) (allExifData exifData : Option ExifRead) :
    Option (Rat × Rat) :=
  match gpsFromGpsData gpsData with
  | some p => some p
  | none =>
    match gpsDirect allExifData with
    | some p => some p
    | none =>
      match gpsDirect exifData with
      | some p => some p
      | none =>
        match gpsFromTagged allExifData with
        | some p => some p
        | none => gpsFromTagged exifData

/-- The JavaScript expression a or-else b on optional numbers, where a
falsy left operand (including 0) yields the right operand. -/
def jsOrNum (a b : Option Rat) : Option Rat :=
  if truthyNum a then a else b

/-- The altitude chain gpsData altitude, else allExifData altitude, else
exifData altitude, else null. -/
def altitudeChain (g : Option GpsRead) (a e : Option ExifRead) : Option Rat :=
  let acc := jsOrNum (jsOrNum (g.bind GpsRead.altitude) (a.bind ExifRead.altitude))
    (e.bind ExifRead.altitude)
  if truthyNum acc then acc else none

/-- The timestamp block: DateTimeOriginal or-else DateTime when either is
truthy. -/
def timestampField (x : Option ExifRead) : Option String :=
  match x with
  | none => none
  | some d =>
    if truthyStr d.DateTimeOriginal then d.DateTimeOriginal
    else if truthyStr d.DateTime then d.DateTime
    else none

/-- The JavaScript expression value or-else null on optional strings. -/
def jsOrStrNull (a : Option String) : Option String :=
  if truthyStr a then a else none

/-- The camera block: present when Make or Model is truthy. -/
def cameraField (x : Option ExifRead) : Option Camera :=
  match x with
  | none => none
  | some d =>
    if truthyStr d.Make || truthyStr d.Model then
      some { make := jsOrStrNull d.Make, model := jsOrStrNull d.Model,
             software := jsOrStrNull d.Software }
    else none

/-- Embedding of imageService.extractImageMetadata (src/services/image.js
lines 105-224) as a function of the three exifr read results: hasGPS and
location are set exactly when the strategy chain produced a pair. -/
def extractImageMetadata (gpsData : Option GpsRead) (allExifData exifData : Option ExifRead) :
    ImageMetadata :=
  match extractGPSPair gpsData allExifData exifData with
  | some (la, lo) =>
    { hasGPS := true
      location := some { latitude := la, longitude := lo,
                         altitude := altitudeChain gpsData allExifData exifData }
      timestamp := timestampField exifData
      camera := cameraField exifData }
  | none =>
    { hasGPS := false, location := none,
      timestamp := timestampField exifData, camera := cameraField exifData }

/-- One entry of the images array of an attendance record, as pushed by
processImageAttendance: the media id of the source message and the
extracted EXIF metadata. -/
structure ImageEntry where
  mediaId : Option String
  exif : Option ImageMetadata
deriving DecidableEq

/-- The location block of an attendance record. -/
structure LocBlock where
  latitude : Rat
  longitude : Rat
  isWithinRadius : Bool
  distanceFromCenter : Option Nat
  verifiedCenter : Option String
  source : Option String
deriving DecidableEq

/-- The verification block of an attendance record. -/
structure Verification where
  isVerified : Bool
  verifiedBy : String
  verifiedAt : Option Nat
  verificationMethod : VMethod
  notes : Option String
deriving DecidableEq

/-- An attendance document (src/models/Attendance.js). date is the
message timestamp in minutes since the epoch in local time; the calendar
day of a record is date divided by 1440. -/
structure AttRecord where
  student : String
  date : Nat
  status : Status
  messageId : String
  location : LocBlock
  verification : Verification
  images : List ImageEntry
deriving DecidableEq

/-- The student fields the webhook path reads. -/
structure StudentRec where
  sid : String
  assignedCenter : Option String
  isActive : Bool
deriving DecidableEq

/-- Time of day (HH:MM) of a minutes-since-epoch timestamp, as produced
by toTimeString().slice(0, 5). -/
def hmOfMinutes (n : Nat) : HM :=
  { h := n % 1440 / 60, m := n % 60 }

/-- Start of the calendar day containing the instant now, as computed by
setHours(0, 0, 0, 0). -/
def startOfDay (now : Nat) : Nat :=
  now / 1440 * 1440

/-- The findOne query used throughout the webhook path: same student and
date at or after today, strictly before tomorrow. -/
def isTodayRecord (sid : String) (now : Nat) (r : AttRecord) : Bool :=
  r.student == sid && decide (startOfDay now ≤ r.date) &&
    decide (r.date < startOfDay now + 1440)

/-- Attendance.findOne over the stored records, in storage order. -/
def lookupToday (state : List AttRecord) (sid : String) (now : Nat) : Option AttRecord :=
  state.find? (isTodayRecord sid now)

/-- Persistence of a save() on a document obtained from findOne: the
first stored record matching the query is replaced. -/
def updateFirst (p : α → Bool) (f : α → α) : List α → List α
  | [] => []
  | x :: xs => if p x then f x :: xs else x :: updateFirst p f xs

/-- Embedding of the pre-save middleware of src/models/Attendance.js
(lines 183-191): when the record is within radius and not yet verified,
mark it verified by auto_geo and classify late against the default 09:00
start with no grace. -/
def preSaveAutoVerify (now : Nat) (r : AttRecord) : AttRecord :=
  if r.location.isWithinRadius && !r.verification.isVerified then
    { r with
      verification := { r.verification with
        isVerified := true, verifiedAt := some now,
        verificationMethod := VMethod.auto_geo }
      status := if isLateDefault (hmOfMinutes r.date) then Status.late else Status.present }
  else r

/-- Embedding of the helper findClosestValidCenter of
src/controllers/webhookController.js (lines 11-46): load the centers from
settings and delegate to Student.isWithinAnyCenterRadius. dist lat lng c
is the geolib distance in meters between the given point and center c. -/
def findClosestValidCenter (dist : Rat → Rat → Center → Nat) (centers : List Center)
    (student : StudentRec) (lat lng : Rat) : GeoOutcome :=
  isWithinAnyCenterRadius student.assignedCenter (dist lat lng) centers

/-- An incoming message, after transport decoding: a location share, an
image or image document together with its already-extracted metadata, or
a plain text message. -/
inductive Msg where
  | location (messageId : String) (ts : Nat) (latitude longitude : Rat)
  | image (messageId : String) (mediaId : String) (ts : Nat) (meta : ImageMetadata)
  | text (messageId : String) (ts : Nat) (body : String)
deriving DecidableEq

/-- Embedding of processLocationAttendance
(src/controllers/webhookController.js lines 250-322): resolve the shared
coordinates, then unconditionally construct and save a new attendance
record. The verification block is initialized with isVerified equal to
the radius check, so the pre-save hook, which fires only on unverified
records, leaves the default status pending_verification in place. -/
def processLocationAttendance (dist : Rat → Rat → Center → Nat) (centers : List Center)
    (student : StudentRec) (state : List AttRecord)
    (messageId : String) (ts : Nat) (lat lng : Rat) (now : Nat) : List AttRecord :=
  let geo := findClosestValidCenter dist centers student lat lng
  let r : AttRecord := {
    student := student.sid
    date := ts
    status := Status.pending
    messageId := messageId
    location := {
      latitude := lat, longitude := lng
      isWithinRadius := geo.isWithin
      distanceFromCenter := geo.distance
      verifiedCenter := geo.center.map Center.id
      source := none }
    verification := {
      isVerified := geo.isWithin
      verifiedBy := "system"
      verifiedAt := if geo.isWithin then some now else none
      verificationMethod := VMethod.auto_geo
      notes := none }
    images := [] }
  state ++ [preSaveAutoVerify now r]

/-- Embedding of processImageAttendance
(src/controllers/webhookController.js lines 325-621). With an existing
record for the day: push the image entry, adopt the image GPS fix when
the record has no verified location yet, then recompute the status when
the location is within radius, and save in place. With no existing
record: create one, taking the location block from the image GPS fix
when present and a zero placeholder otherwise. -/
def processImageAttendance (dist : Rat → Rat → Center → Nat) (centers : List Center)
    (student : StudentRec) (state : List AttRecord)
    (messageId mediaId : String) (ts : Nat) (meta : ImageMetadata) (now : Nat) :
    List AttRecord :=
  match lookupToday state student.sid now with
  | some att =>
    let att1 : AttRecord :=
      { att with images := att.images ++ [{ mediaId := some mediaId, exif := some meta }] }
    let att2 : AttRecord :=
      if meta.hasGPS && !att1.location.isWithinRadius then
        match meta.location with
        | some loc =>
          let geo := findClosestValidCenter dist centers student loc.latitude loc.longitude
          let a : AttRecord := { att1 with
            location := {
              latitude := loc.latitude, longitude := loc.longitude
              isWithinRadius := geo.isWithin
              distanceFromCenter := geo.distance
              verifiedCenter := geo.center.map Center.id
              source := some "image_exif" } }
          if geo.isWithin then
            { a with
              status := if isLateDefault (hmOfMinutes a.date) then Status.late else Status.present
              verification := { a.verification with
                isVerified := true, verifiedAt := some now } }
          else a
        | none => att1
      else att1
    let att3 : AttRecord :=
      if att2.location.isWithinRadius then
        { att2 with
          status := if isLateDefault (hmOfMinutes att2.date) then Status.late else Status.present
          verification := { att2.verification with
            isVerified := true, verifiedAt := some now } }
      else att2
    updateFirst (isTodayRecord student.sid now) (fun _ => preSaveAutoVerify now att3) state
  | none =>
    let initialStatus : Status :=
      if meta.hasGPS then
        match meta.location with
        | some loc =>
          if (findClosestValidCenter dist centers student loc.latitude loc.longitude).isWithin
          then Status.present else Status.pending
        | none => Status.pending
      else Status.pending
    let locBlock : LocBlock :=
      if meta.hasGPS then
        match meta.location with
        | some loc =>
          let geo := findClosestValidCenter dist centers student loc.latitude loc.longitude
          { latitude := loc.latitude, longitude := loc.longitude
            isWithinRadius := geo.isWithin
            distanceFromCenter := geo.distance
            verifiedCenter := geo.center.map Center.id
            source := some "image_exif" }
        | none =>
          { latitude := 0, longitude := 0, isWithinRadius := false
            distanceFromCenter := some 999999, verifiedCenter := none
            source := some "pending" }
      else
        { latitude := 0, longitude := 0, isWithinRadius := false
          distanceFromCenter := some 999999, verifiedCenter := none
          source := some "pending" }
    let r : AttRecord := {
      student := student.sid
      date := ts
      status := initialStatus
      messageId := messageId
      location := locBlock
      verification := {
        isVerified := false, verifiedBy := "system", verifiedAt := none
        verificationMethod := VMethod.auto_geo, notes := none }
      images := [{ mediaId := some mediaId, exif := some meta }] }
    state ++ [preSaveAutoVerify now r]

/-- Embedding of handleIncomingMessage
(src/controllers/webhookController.js lines 90-247), restricted to the
ledger state: inactive students are turned away; when a record for today
exists whose status is not pending_verification the message is answered
without touching the ledger; otherwise location messages go to
processLocationAttendance, image and image-document messages to
processImageAttendance, and text messages only produce replies. -/
def handleIncomingMessage (dist : Rat → Rat → Center → Nat) (centers : List Center)
    (state : List AttRecord) (student : StudentRec) (now : Nat) (msg : Msg) :
    List AttRecord :=
  if !student.isActive then state
  else
    let blocked : Bool :=
      match lookupToday state student.sid now with
      | some r => decide (r.status ≠ Status.pending)
      | none => false
    if blocked then state
    else
      match msg with
      | Msg.location mid ts lat lng =>
        processLocationAttendance dist centers student state mid ts lat lng now
      | Msg.image mid mediaId ts meta =>
        processImageAttendance dist centers student state mid mediaId ts meta now
      | Msg.text _ _ _ => state

/-- Embedding of verifyAttendance (src/controllers/attendanceController.js
lines 197-230): statuses outside present, late, absent are rejected;
otherwise the record is updated with the given status and a manual_admin
verification block. -/
def verifyAttendance (s : Status) (notes : Option String) (now : Nat) (r : AttRecord) :
    Option AttRecord :=
  if s = Status.pending then none
  else some { r with
    status := s
    verification := {
      isVerified := true
      verifiedBy := "admin"
      verifiedAt := some now
      verificationMethod := VMethod.manual_admin
      notes := some (notes.getD "") } }

/-- An inactive center carrying the id an example student is assigned to. -/
def centerC3a : Center :=
  { id := "C1", name := "Assigned", latitude := 10, longitude := 20,
    radius := 100, isActive := false }

/-- A different, active center. -/
def centerC3b : Center :=
  { id := "D1", name := "Other", latitude := 11, longitude := 21,
    radius := 100, isActive := true }

/-- Distances for the assigned-center scenario: 50 m to the assigned
center, 30 m to the other one, so the point lies inside the other
center's radius. -/
def distC3 : Center → Nat := fun c => if c.id == "C1" then 50 else 30

/-- Claim C3, evaluated at the failing input: for a student assigned to
center C1, whose assigned center is present in the directory but
inactive, and evidence located inside the radius of the different active
center D1, the resolver does NOT answer matched false with distance
Infinity and center null; it falls through to the all-active-centers scan
and matches D1. The claim and the source comment saying to check only the
assigned center both demand no fallback, so this is a defect of the
code. -/
theorem claim3_assigned_center_fallback_eval :
    isWithinAnyCenterRadius (some "C1") distC3 [centerC3a, centerC3b] =
      { isWithin := true, distance := some 30, center := some centerC3b }
    ∧ centerC3a.id = "C1" ∧ centerC3a.isActive = false
    ∧ (isWithinAnyCenterRadius (some "C1") distC3 [centerC3a, centerC3b]).center
        ≠ some centerC3a := by
  refine ⟨by decide, rfl, rfl, by decide⟩

/-- A single active configured center with a 2000 m radius. -/
def centerC6 : Center :=
  { id := "M1", name := "Main", latitude := 28.6139, longitude := 77.2090,
    radius := 2000, isActive := true }

/-- A distance function putting the point 15 km from every center. -/
def distC6 : Center → Nat := fun _ => 15000

/-- Claim C6, counterexample: with a single active candidate 15000 m away
(radius 2000 m), no candidate is a hit, and the resolver does NOT report
the globally closest candidate and its distance: it answers center null
and distance Infinity, refuting the claim at this input. -/
theorem claim6_counterexample :
    isWithinAnyCenterRadius none distC6 [centerC6] =
      { isWithin := false, distance := none, center := none }
    ∧ (isWithinAnyCenterRadius none distC6 [centerC6]).center ≠ some centerC6
    ∧ (isWithinAnyCenterRadius none distC6 [centerC6]).distance ≠ some 15000 := by
  refine ⟨by decide, by decide, by decide⟩

/-- Claim C6 as amended: when no active candidate center's radius
contains the point, the resolver marks matched false and reports
distance Infinity and center null; the closest non-matching candidate is
not reported. -/
theorem claim6_amended_no_hit_reports_nothing (d : Center → Nat) (centers : List Center)
    (hmiss : ∀ c ∈ centers, c.isActive = true → c.radius < d c) :
    isWithinAnyCenterRadius none d centers =
      { isWithin := false, distance := none, center := none } := by
  have hpick : pickFirstMin d centers = none := by
    cases h : pickFirstMin d centers with
    | none => rfl
    | some p =>
      obtain ⟨c, m⟩ := p
      obtain ⟨hmem, hact, hhit, _⟩ := pickFirstMin_mem h
      have := hmiss c hmem hact
      omega
  simp [isWithinAnyCenterRadius, scanCenters_eq_pickFirstMin, hpick]

/-- Witness for the amended claim C6 at the concrete input above. -/
theorem claim6_amended_witness :
    isWithinAnyCenterRadius none distC6 [centerC6] =
      { isWithin := false, distance := none, center := none } :=
  claim6_amended_no_hit_reports_nothing distC6 [centerC6] (by decide)

/-- Claim C7: whenever some active candidate is a geofence hit, the
resolver (unrestricted eligibility) returns a hit c at its exact
distance m, m is the smallest distance over all hits, and every hit
listed before c in directory order is strictly farther, so on exact
distance ties the first listed hit wins. -/
theorem claim7_min_distance_first_tie (d : Center → Nat) (centers : List Center)
    (hne : ∃ c0, c0 ∈ centers ∧ c0.isActive = true ∧ d c0 ≤ c0.radius) :
    ∃ c m, isWithinAnyCenterRadius none d centers =
        { isWithin := true, distance := some m, center := some c }
      ∧ c ∈ centers ∧ c.isActive = true ∧ d c = m ∧ m ≤ c.radius
      ∧ (∀ c2 ∈ centers, c2.isActive = true → d c2 ≤ c2.radius → m ≤ d c2)
      ∧ (∃ l1 l2, centers = l1 ++ c :: l2 ∧
          ∀ c2 ∈ l1, c2.isActive = true → d c2 ≤ c2.radius → m < d c2) := by
  obtain ⟨c0, hc0, hact0, hhit0⟩ := hne
  obtain ⟨c, m, hpick⟩ := pickFirstMin_isSome_of_hit hc0 hact0 hhit0
  obtain ⟨hmem, hact, hhit, hdm⟩ := pickFirstMin_mem hpick
  refine ⟨c, m, ?_, hmem, hact, hdm, by omega, pickFirstMin_min hpick,
    pickFirstMin_first hpick⟩
  simp [isWithinAnyCenterRadius, scanCenters_eq_pickFirstMin, hpick]

/-- First center of the tie scenario: a hit at 50 m. -/
def centerT1 : Center :=
  { id := "A", name := "A", latitude := 1, longitude := 1, radius := 100, isActive := true }

/-- Second center of the tie scenario: a hit at the same 50 m. -/
def centerT2 : Center :=
  { id := "B", name := "B", latitude := 2, longitude := 2, radius := 100, isActive := true }

/-- A closer center that is not a hit: 10 m away but with a 5 m radius. -/
def centerT0 : Center :=
  { id := "K", name := "K", latitude := 3, longitude := 3, radius := 5, isActive := true }

/-- Tie distances: 10 m to the non-hit, 50 m to both hits. -/
def distTie : Center → Nat := fun c => if c.id == "K" then 10 else 50

/-- Witness for claim C7 at a concrete directory with two equidistant
hits behind a closer non-hit. -/
theorem claim7_witness :
    ∃ c m, isWithinAnyCenterRadius none distTie [centerT0, centerT1, centerT2] =
        { isWithin := true, distance := some m, center := some c }
      ∧ c ∈ [centerT0, centerT1, centerT2] ∧ c.isActive = true ∧ distTie c = m
      ∧ m ≤ c.radius
      ∧ (∀ c2 ∈ [centerT0, centerT1, centerT2],
          c2.isActive = true → distTie c2 ≤ c2.radius → m ≤ distTie c2)
      ∧ (∃ l1 l2, [centerT0, centerT1, centerT2] = l1 ++ c :: l2 ∧
          ∀ c2 ∈ l1, c2.isActive = true → distTie c2 ≤ c2.radius → m < distTie c2) :=
  claim7_min_distance_first_tie distTie [centerT0, centerT1, centerT2]
    ⟨centerT1, by decide, by decide, by decide⟩

theorem lookupToday_updateFirst {sid : String} {now : Nat} {x : AttRecord} :
    ∀ {state : List AttRecord} {r : AttRecord},
      lookupToday state sid now = some r →
      isTodayRecord sid now x = true →
      lookupToday (updateFirst (isTodayRecord sid now) (fun _ => x) state) sid now =
        some x := by
  intro state
  induction state with
  | nil => intro r h _; simp [lookupToday] at h
  | cons a as ih =>
    intro r h hx
    cases hp : isTodayRecord sid now a with
    | true =>
      simp only [updateFirst, hp, if_true]
      simp only [lookupToday, List.find?, hx]
    | false =>
      have h2 : lookupToday as sid now = some r := by
        simpa only [lookupToday, List.find?, hp] using h
      simp only [updateFirst, hp, Bool.false_eq_true, if_false]
      simp only [lookupToday, List.find?, hp]
      exact ih h2 hx

/-- The student used in the concrete ledger scenarios: unrestricted
eligibility, active. -/
def studentS : StudentRec := { sid := "S1", assignedCenter := none, isActive := true }

/-- The configured center of the concrete ledger scenarios. -/
def centerMain : Center :=
  { id := "M1", name := "Main", latitude := 28.6139, longitude := 77.2090,
    radius := 2000, isActive := true }

/-- A distance function placing every evidence point 1200 m from every
center, hence inside the 2000 m radius. -/
def distNear : Rat → Rat → Center → Nat := fun _ _ _ => 1200

/-- First location share of the day, at minute 595 of day 0 (09:55). -/
def msgLoc1 : Msg := Msg.location "m1" 595 28.6150 77.2100

/-- A second location share of the same day, five minutes later, with a
different message id. -/
def msgLoc2 : Msg := Msg.location "m2" 600 28.6150 77.2100

/-- Claim C1, evaluated at the failing input: after an in-radius location
share creates the day's record, a second location share for the same
student and day does not mutate that record; processLocationAttendance
unconditionally constructs and saves a fresh record, so the ledger holds
TWO attendance records for the same (student, calendar day). The first
message alone leaves exactly one. -/
theorem claim1_second_location_creates_second_record :
    ((handleIncomingMessage distNear [centerMain]
        (handleIncomingMessage distNear [centerMain] [] studentS 600 msgLoc1)
        studentS 600 msgLoc2).countP (isTodayRecord "S1" 600)) = 2
    ∧ ((handleIncomingMessage distNear [centerMain] [] studentS 600 msgLoc1).countP
        (isTodayRecord "S1" 600)) = 1 := by
  refine ⟨by decide, by decide⟩

/-- Image metadata with no GPS fix. -/
def metaNoGPS : ImageMetadata :=
  { hasGPS := false, location := none, timestamp := none, camera := none }

/-- An image message without GPS metadata; MED1 is its media id. -/
def msgImg : Msg := Msg.image "mi1" "MED1" 595 metaNoGPS

/-- Claim C2, counterexample: delivering the same image message (same
source message id, same media id) twice while the day's record is still
pending_verification appends its evidence entry twice — the evidence
list holds TWO entries for that id, not exactly one — while the status
stays pending_verification. -/
theorem claim2_counterexample_duplicate_appends :
    ((lookupToday (handleIncomingMessage distNear [centerMain]
        (handleIncomingMessage distNear [centerMain] [] studentS 600 msgImg)
        studentS 600 msgImg) "S1" 600).map
      (fun r => ((r.images.filter (fun en => en.mediaId == some "MED1")).length,
        r.status))) = some (2, Status.pending) := by
  decide

/-- Claim C2 as amended: the pipeline never deduplicates by source
message id. A duplicate delivered after the record's status left
pending_verification is rejected wholesale by the day-guard, leaving the
ledger unchanged; a duplicate image delivered while the record is still
pending_verification (and without a usable GPS fix or verified location)
is appended a second time, and only the status is unchanged. -/
theorem claim2_amended_no_messageid_dedup :
    (∀ (dist : Rat → Rat → Center → Nat) (centers : List Center)
        (state : List AttRecord) (student : StudentRec) (now : Nat) (msg : Msg)
        (r : AttRecord),
        lookupToday state student.sid now = some r →
        r.status ≠ Status.pending →
        handleIncomingMessage dist centers state student now msg = state)
    ∧ (∀ (dist : Rat → Rat → Center → Nat) (centers : List Center)
        (state : List AttRecord) (student : StudentRec) (now : Nat)
        (mid mediaId : String) (ts : Nat) (meta : ImageMetadata) (r : AttRecord),
        student.isActive = true →
        lookupToday state student.sid now = some r →
        r.status = Status.pending →
        r.location.isWithinRadius = false →
        meta.hasGPS = false →
        lookupToday (handleIncomingMessage dist centers state student now
            (Msg.image mid mediaId ts meta)) student.sid now =
          some { r with
            images := r.images ++ [{ mediaId := some mediaId, exif := some meta }] }) := by
  constructor
  · intro dist centers state student now msg r h hr
    unfold handleIncomingMessage
    cases hact : student.isActive with
    | false => simp
    | true => simp [h, hr]
  · intro dist centers state student now mid mediaId ts meta r hact h hpend hwithin hgps
    have hx : isTodayRecord student.sid now
        { r with images := r.images ++ [{ mediaId := some mediaId, exif := some meta }] }
        = true := by
      have hr := List.find?_some h
      simpa [isTodayRecord] using hr
    have hdec : decide (r.status ≠ Status.pending) = false := by
      rw [hpend]; simp
    have hproc : processImageAttendance dist centers student state mid mediaId ts meta now =
        updateFirst (isTodayRecord student.sid now)
          (fun _ => { r with
            images := r.images ++ [{ mediaId := some mediaId, exif := some meta }] })
          state := by
      simp only [processImageAttendance, h, hgps, hwithin, preSaveAutoVerify,
        Bool.false_and, Bool.false_eq_true, if_false]
    unfold handleIncomingMessage
    rw [hact]
    simp only [Bool.not_true, Bool.false_eq_true, if_false, h, hdec]
    rw [hproc]
    exact lookupToday_updateFirst h hx

/-- A present, auto-verified record for student S1 created earlier on day
0, before an administrator intervenes. -/
def recBase : AttRecord :=
  { student := "S1"
    date := 590
    status := Status.present
    messageId := "m0"
    location := {
      latitude := 28.6150, longitude := 77.2100, isWithinRadius := true,
      distanceFromCenter := some 1200, verifiedCenter := some "M1", source := none }
    verification := {
      isVerified := true, verifiedBy := "system", verifiedAt := some 590,
      verificationMethod := VMethod.auto_geo, notes := none }
    images := [] }

/-- The record above after a manual admin verification to absent. -/
def recManualAbsent : AttRecord :=
  { recBase with
    status := Status.absent
    verification := {
      isVerified := true, verifiedBy := "admin", verifiedAt := some 700,
      verificationMethod := VMethod.manual_admin, notes := some "no show" } }

/-- Claim C4: once verifyAttendance has set a record to absent with
method manual_admin, any subsequently delivered automatic evidence
message for the same student and day — location or image, in radius or
not, on time or not — leaves the ledger unchanged, and the record's
status remains absent. -/
theorem claim4_manual_absent_is_sticky (dist : Rat → Rat → Center → Nat)
    (centers : List Center) (state : List AttRecord) (student : StudentRec)
    (now : Nat) (msg : Msg) (notes : Option String) (tv : Nat) (r0 r : AttRecord)
    (hv : verifyAttendance Status.absent notes tv r0 = some r)
    (h : lookupToday state student.sid now = some r) :
    handleIncomingMessage dist centers state student now msg = state
    ∧ lookupToday (handleIncomingMessage dist centers state student now msg)
        student.sid now = some r
    ∧ r.status = Status.absent
    ∧ r.verification.verificationMethod = VMethod.manual_admin := by
  simp only [verifyAttendance, reduceCtorEq, if_false, Option.some.injEq] at hv
  have hstat : r.status = Status.absent := by rw [← hv]
  have hmeth : r.verification.verificationMethod = VMethod.manual_admin := by rw [← hv]
  have hstate : handleIncomingMessage dist centers state student now msg = state := by
    unfold handleIncomingMessage
    cases hact : student.isActive with
    | false => simp
    | true => simp [h, hstat]
  exact ⟨hstate, by rw [hstate]; exact h, hstat, hmeth⟩

/-- Witness for claim C4: a concrete manually-absent record, followed by
an in-radius, on-time location share that leaves it untouched. -/
theorem claim4_witness :
    handleIncomingMessage distNear [centerMain] [recManualAbsent] studentS 600 msgLoc1
      = [recManualAbsent]
    ∧ lookupToday (handleIncomingMessage distNear [centerMain] [recManualAbsent]
        studentS 600 msgLoc1) studentS.sid 600 = some recManualAbsent
    ∧ recManualAbsent.status = Status.absent
    ∧ recManualAbsent.verification.verificationMethod = VMethod.manual_admin :=
  claim4_manual_absent_is_sticky distNear [centerMain] [recManualAbsent] studentS 600
    msgLoc1 (some "no show") 700 recBase recManualAbsent rfl rfl

/-- The configured morning window 09:00 to 13:00 of the scenario. -/
def morningSlots : TimeSlots :=
  [("morning", some { start := some { h := 9, m := 0 }, endT := some { h := 13, m := 0 } })]

/-- Claim C5: with a morning window 09:00-13:00 and a 15 minute grace
threshold, the status computed for an accepted in-radius check-in by the
center-aware classification is present at 09:05, late at 09:20, late at
23:30 with the slot classifier answering window null, and present exactly
at the 09:15 boundary; in general, for an instant inside a declared
window, the center-aware isLate answers true exactly when the minute of
day of the instant minus the minute of day of the window start strictly
exceeds the grace threshold. -/
theorem claim5_grace_window :
    preSaveStatusWithCenter (some morningSlots) 15 { h := 9, m := 5 } = Status.present
    ∧ preSaveStatusWithCenter (some morningSlots) 15 { h := 9, m := 20 } = Status.late
    ∧ (preSaveStatusWithCenter (some morningSlots) 15 { h := 23, m := 30 } = Status.late
       ∧ getTimeSlot (some morningSlots) { h := 23, m := 30 } =
           { slot := none, isWithinHours := false, startTime := none, endTime := none })
    ∧ preSaveStatusWithCenter (some morningSlots) 15 { h := 9, m := 15 } = Status.present
    ∧ (∀ (slots : TimeSlots) (t : HM) (g : Nat) (n : String) (s e : HM),
        findSlot t slots = some (n, s, e) →
        (isLateWithCenter (some slots) t g = true ↔
          (timeToMinutes t : Int) - timeToMinutes s > (g : Int))) := by
  refine ⟨by decide, by decide, ⟨by decide, by decide⟩, by decide, ?_⟩
  intro slots t g n s e hfind
  have h1 := isLateLoop_eq_findSlot t g slots
  simp only [hfind] at h1
  simp only [isLateWithCenter, h1, decide_eq_true_eq]
  omega

/-- Witness for claim C5 at 09:16 in the morning window. -/
theorem claim5_witness :
    findSlot { h := 9, m := 16 } morningSlots =
      some ("morning", { h := 9, m := 0 }, { h := 13, m := 0 })
    ∧ (isLateWithCenter (some morningSlots) { h := 9, m := 16 } 15 = true ↔
        (timeToMinutes { h := 9, m := 16 } : Int) -
          timeToMinutes { h := 9, m := 0 } > (15 : Int)) :=
  ⟨by decide, claim5_grace_window.2.2.2.2 morningSlots { h := 9, m := 16 } 15
    "morning" { h := 9, m := 0 } { h := 13, m := 0 } (by decide)⟩

/-- Well-formedness of one timeSlots entry: any configured bound has a
minute component below 60, so that lexicographic HH:MM comparison agrees
with minute-of-day comparison. -/
def slotWF (p : String × Option SlotTimes) : Bool :=
  match p.2 with
  | none => true
  | some ts =>
    (match ts.start with
     | some s => decide (s.m < 60)
     | none => true) &&
    (match ts.endT with
     | some e => decide (e.m < 60)
     | none => true)

/-- Claim C8: the classifier compares minute-of-day with inclusive bounds
on both ends; it returns the first matching window in declared iteration
order; and when no declared window contains the instant it answers
window null with isWithinHours false, in which case both late checks
classify the check-in late unconditionally. -/
theorem claim8_window_classification :
    (∀ (slots : TimeSlots) (t : HM), t.m < 60 → (∀ p ∈ slots, slotWF p = true) →
      ((getCurrentTimeSlot (some slots) t).isWithinHours = true ↔
        ∃ n s e, (n, some { start := some s, endT := some e : SlotTimes }) ∈ slots ∧
          timeToMinutes s ≤ timeToMinutes t ∧ timeToMinutes t ≤ timeToMinutes e))
    ∧ (∀ (slots : TimeSlots) (t : HM) (n : String) (s e : HM),
        getCurrentTimeSlot (some slots) t =
          { slot := some n, isWithinHours := true, startTime := some s, endTime := some e } →
        ∃ l1 l2, slots = l1 ++ (n, some { start := some s, endT := some e }) :: l2 ∧
          ∀ p ∈ l1, slotMatches t p = false)
    ∧ (∀ (slots : TimeSlots) (t : HM) (g : Nat),
        (∀ p ∈ slots, slotMatches t p = false) →
        getCurrentTimeSlot (some slots) t =
          { slot := none, isWithinHours := false, startTime := none, endTime := none }
        ∧ isAttendanceLate (some slots) t g = true
        ∧ isLateWithCenter (some slots) t g = true) := by
  refine ⟨?_, ?_, ?_⟩
  · intro slots t htm hwf
    constructor
    · intro hin
      cases hf : findSlot t slots with
      | none => simp [getCurrentTimeSlot, hf] at hin
      | some p =>
        obtain ⟨n, s, e⟩ := p
        obtain ⟨hmem, hsle, hle⟩ := findSlot_mem hf
        have hwfe := hwf _ hmem
        simp only [slotWF, Bool.and_eq_true, decide_eq_true_eq] at hwfe
        exact ⟨n, s, e, hmem,
          (hmLE_iff_minutes hwfe.1 htm).mp hsle,
          (hmLE_iff_minutes htm hwfe.2).mp hle⟩
    · rintro ⟨n, s, e, hmem, hs, he⟩
      have hwfe := hwf _ hmem
      simp only [slotWF, Bool.and_eq_true, decide_eq_true_eq] at hwfe
      have hmatch : slotMatches t (n, some { start := some s, endT := some e }) = true := by
        simp only [slotMatches, Bool.and_eq_true]
        exact ⟨(hmLE_iff_minutes hwfe.1 htm).mpr hs, (hmLE_iff_minutes htm hwfe.2).mpr he⟩
      cases hf : findSlot t slots with
      | none =>
        have := findSlot_none_iff.mp hf _ hmem
        rw [this] at hmatch
        exact absurd hmatch (by simp)
      | some p =>
        obtain ⟨n2, s2, e2⟩ := p
        simp [getCurrentTimeSlot, hf]
  · intro slots t n s e heq
    cases hf : findSlot t slots with
    | none => simp [getCurrentTimeSlot, hf] at heq
    | some p =>
      obtain ⟨n2, s2, e2⟩ := p
      simp only [getCurrentTimeSlot, hf, TimeSlotInfo.mk.injEq, Option.some.injEq] at heq
      obtain ⟨rfl, -, rfl, rfl⟩ := heq
      exact findSlot_first hf
  · intro slots t g h
    have hf : findSlot t slots = none := findSlot_none_iff.mpr h
    refine ⟨by simp [getCurrentTimeSlot, hf], ?_, ?_⟩
    · simp [isAttendanceLate, getCurrentTimeSlot, hf]
    · have h1 := isLateLoop_eq_findSlot t g slots
      simp only [hf] at h1
      simp [isLateWithCenter, h1]

/-- Witness for claim C8: the morning window at 10:30 (inside), the
first-match split for the same instant, and the outside-hours instant
23:30. -/
theorem claim8_witness :
    ((getCurrentTimeSlot (some morningSlots) { h := 10, m := 30 }).isWithinHours = true ↔
      ∃ n s e, (n, some { start := some s, endT := some e : SlotTimes }) ∈ morningSlots ∧
        timeToMinutes s ≤ timeToMinutes { h := 10, m := 30 } ∧
        timeToMinutes { h := 10, m := 30 } ≤ timeToMinutes e)
    ∧ (∃ l1 l2, morningSlots =
        l1 ++ ("morning",
          some { start := some { h := 9, m := 0 }, endT := some { h := 13, m := 0 } }) :: l2 ∧
        ∀ p ∈ l1, slotMatches { h := 10, m := 30 } p = false)
    ∧ (getCurrentTimeSlot (some morningSlots) { h := 23, m := 30 } =
        { slot := none, isWithinHours := false, startTime := none, endTime := none }
      ∧ isAttendanceLate (some morningSlots) { h := 23, m := 30 } 15 = true
      ∧ isLateWithCenter (some morningSlots) { h := 23, m := 30 } 15 = true) :=
  ⟨claim8_window_classification.1 morningSlots { h := 10, m := 30 } (by decide) (by decide),
   claim8_window_classification.2.1 morningSlots { h := 10, m := 30 } "morning"
     { h := 9, m := 0 } { h := 13, m := 0 } (by decide),
   claim8_window_classification.2.2 morningSlots { h := 23, m := 30 } 15 (by decide)⟩

/-- Claim C9, counterexample: a location message with latitude 200, far
outside [-90, 90], fails validateCoordinates, yet the pipeline performs
no coordinate validation at all: the resolver runs on the raw value, and
with a center whose measured distance is inside the radius the evidence
is even accepted, producing a record that stores latitude 200 with
isWithinRadius true — it is not rejected before CenterResolver. -/
theorem claim9_counterexample :
    validateCoordinates 200 77.2090 = false
    ∧ ((lookupToday (handleIncomingMessage distNear [centerMain] [] studentS 600
        (Msg.location "m9" 595 200 77.2090)) "S1" 600).map
          (fun r => (r.location.isWithinRadius, r.location.latitude == 200)))
        = some (true, true) := by
  refine ⟨by decide, by decide⟩

theorem preSaveAutoVerify_location (now : Nat) (r : AttRecord) :
    (preSaveAutoVerify now r).location = r.location := by
  unfold preSaveAutoVerify
  split <;> rfl

/-- Claim C9 as amended: the webhook location path performs no coordinate
validation before resolution — geoService.validateCoordinates is never
invoked there. For every latitude and longitude, in range or not, a
location message for a student with no record yet appends exactly one
new record whose stored coordinates are the raw inputs and whose radius
verdict and distance come from running the resolver on those raw inputs;
processing is total, so malformed input does not crash the ledger. -/
theorem claim9_amended_resolver_runs_unvalidated (dist : Rat → Rat → Center → Nat)
    (centers : List Center) (student : StudentRec) (state : List AttRecord)
    (now : Nat) (mid : String) (ts : Nat) (lat lng : Rat)
    (hact : student.isActive = true)
    (hnone : lookupToday state student.sid now = none) :
    ∃ rec, handleIncomingMessage dist centers state student now
        (Msg.location mid ts lat lng) = state ++ [rec]
      ∧ rec.location.latitude = lat
      ∧ rec.location.longitude = lng
      ∧ rec.location.isWithinRadius =
          (findClosestValidCenter dist centers student lat lng).isWithin
      ∧ rec.location.distanceFromCenter =
          (findClosestValidCenter dist centers student lat lng).distance := by
  unfold handleIncomingMessage
  rw [hact]
  simp only [Bool.not_true, Bool.false_eq_true, if_false, hnone]
  unfold processLocationAttendance
  refine ⟨_, rfl, ?_, ?_, ?_, ?_⟩ <;>
    simp only [preSaveAutoVerify_location]

/-- Witness for the amended claim C9 at the out-of-range latitude 200. -/
theorem claim9_amended_witness :
    ∃ rec, handleIncomingMessage distNear [centerMain] [] studentS 600
        (Msg.location "m9" 595 200 77.2090) = [] ++ [rec]
      ∧ rec.location.latitude = 200
      ∧ rec.location.longitude = 77.2090
      ∧ rec.location.isWithinRadius =
          (findClosestValidCenter distNear [centerMain] studentS 200 77.2090).isWithin
      ∧ rec.location.distanceFromCenter =
          (findClosestValidCenter distNear [centerMain] studentS 200 77.2090).distance :=
  claim9_amended_resolver_runs_unvalidated distNear [centerMain] studentS [] 600
    "m9" 595 200 77.2090 rfl rfl

theorem gpsFromGpsData_none_lat {g : Option GpsRead}
    (h : truthyNum (g.bind GpsRead.latitude) = false) : gpsFromGpsData g = none := by
  cases g with
  | none => rfl
  | some gd =>
    simp only [Option.bind] at h
    cases hla : gd.latitude with
    | none => simp [gpsFromGpsData, hla]
    | some la =>
      rw [hla] at h
      simp only [truthyNum] at h
      cases hlo : gd.longitude with
      | none => simp [gpsFromGpsData, hla, hlo]
      | some lo => simp [gpsFromGpsData, hla, hlo, h]

theorem gpsFromGpsData_none_lng {g : Option GpsRead}
    (h : truthyNum (g.bind GpsRead.longitude) = false) : gpsFromGpsData g = none := by
  cases g with
  | none => rfl
  | some gd =>
    simp only [Option.bind] at h
    cases hlo : gd.longitude with
    | none => simp [gpsFromGpsData, hlo]
    | some lo =>
      rw [hlo] at h
      simp only [truthyNum] at h
      cases hla : gd.latitude with
      | none => simp [gpsFromGpsData, hla, hlo]
      | some la => simp [gpsFromGpsData, hla, hlo, h]

theorem gpsDirect_none_lat {x : Option ExifRead}
    (h : truthyNum (x.bind ExifRead.latitude) = false) : gpsDirect x = none := by
  cases x with
  | none => rfl
  | some d =>
    simp only [Option.bind] at h
    cases hla : d.latitude with
    | none => simp [gpsDirect, hla]
    | some la =>
      rw [hla] at h
      simp only [truthyNum] at h
      cases hlo : d.longitude with
      | none => simp [gpsDirect, hla, hlo]
      | some lo => simp [gpsDirect, hla, hlo, h]

theorem gpsDirect_none_lng {x : Option ExifRead}
    (h : truthyNum (x.bind ExifRead.longitude) = false) : gpsDirect x = none := by
  cases x with
  | none => rfl
  | some d =>
    simp only [Option.bind] at h
    cases hlo : d.longitude with
    | none => simp [gpsDirect, hlo]
    | some lo =>
      rw [hlo] at h
      simp only [truthyNum] at h
      cases hla : d.latitude with
      | none => simp [gpsDirect, hla, hlo]
      | some la => simp [gpsDirect, hla, hlo, h]

theorem gpsFromTagged_none_lat {x : Option ExifRead}
    (h : truthyNum (x.bind ExifRead.GPSLatitude) = false) : gpsFromTagged x = none := by
  cases x with
  | none => rfl
  | some d =>
    simp only [Option.bind] at h
    cases hla : d.GPSLatitude with
    | none => simp [gpsFromTagged, hla]
    | some la =>
      rw [hla] at h
      simp only [truthyNum] at h
      cases hlo : d.GPSLongitude with
      | none => simp [gpsFromTagged, hla, hlo]
      | some lo => simp [gpsFromTagged, hla, hlo, h]

theorem gpsFromTagged_none_lng {x : Option ExifRead}
    (h : truthyNum (x.bind ExifRead.GPSLongitude) = false) : gpsFromTagged x = none := by
  cases x with
  | none => rfl
  | some d =>
    simp only [Option.bind] at h
    cases hlo : d.GPSLongitude with
    | none => simp [gpsFromTagged, hlo]
    | some lo =>
      rw [hlo] at h
      simp only [truthyNum] at h
      cases hla : d.GPSLatitude with
      | none => simp [gpsFromTagged, hla, hlo]
      | some la => simp [gpsFromTagged, hla, hlo, h]

/-- Claim C10: when the latitude surfaced to every extraction strategy is
absent or exactly 0 — equivalently for the longitude — no strategy
accepts, because each one tests both coordinate values for truthiness, so
extractImageMetadata reports hasGPS false and location null. -/
theorem claim10_zero_coordinate_no_gps (g : Option GpsRead) (a e : Option ExifRead)
    (h : (truthyNum (g.bind GpsRead.latitude) = false
          ∧ truthyNum (a.bind ExifRead.latitude) = false
          ∧ truthyNum (e.bind ExifRead.latitude) = false
          ∧ truthyNum (a.bind ExifRead.GPSLatitude) = false
          ∧ truthyNum (e.bind ExifRead.GPSLatitude) = false)
       ∨ (truthyNum (g.bind GpsRead.longitude) = false
          ∧ truthyNum (a.bind ExifRead.longitude) = false
          ∧ truthyNum (e.bind ExifRead.longitude) = false
          ∧ truthyNum (a.bind ExifRead.GPSLongitude) = false
          ∧ truthyNum (e.bind ExifRead.GPSLongitude) = false)) :
    (extractImageMetadata g a e).hasGPS = false
    ∧ (extractImageMetadata g a e).location = none := by
  have hchain : extractGPSPair g a e = none := by
    rcases h with ⟨h1, h2, h3, h4, h5⟩ | ⟨h1, h2, h3, h4, h5⟩
    · simp [extractGPSPair, gpsFromGpsData_none_lat h1, gpsDirect_none_lat h2,
        gpsDirect_none_lat h3, gpsFromTagged_none_lat h4, gpsFromTagged_none_lat h5]
    · simp [extractGPSPair, gpsFromGpsData_none_lng h1, gpsDirect_none_lng h2,
        gpsDirect_none_lng h3, gpsFromTagged_none_lng h4, gpsFromTagged_none_lng h5]
  simp [extractImageMetadata, hchain]

/-- An exifr.gps read of an image geotagged exactly on the equator:
latitude 0, longitude 77.2090. -/
def gpsReadEquator : GpsRead :=
  { latitude := some 0, longitude := some 77.2090, altitude := none }

/-- The corresponding parse result: direct and tagged latitude 0. -/
def exifReadEquator : ExifRead :=
  { latitude := some 0, longitude := some 77.2090
    GPSLatitude := some 0, GPSLongitude := some 77.2090
    GPSLatitudeRef := some "N", GPSLongitudeRef := some "E"
    altitude := none, DateTime := none, DateTimeOriginal := none
    Make := none, Model := none, Software := none }

/-- Witness for claim C10 at an image whose embedded latitude is exactly
0 in every extraction source. -/
theorem claim10_witness :
    (extractImageMetadata (some gpsReadEquator) (some exifReadEquator)
        (some exifReadEquator)).hasGPS = false
    ∧ (extractImageMetadata (some gpsReadEquator) (some exifReadEquator)
        (some exifReadEquator)).location = none :=
  claim10_zero_coordinate_no_gps (some gpsReadEquator) (some exifReadEquator)
    (some exifReadEquator)
    (Or.inl ⟨by decide, by decide, by decide, by decide, by decide⟩)

/-- The pending record created by a GPS-less image message earlier on
day 0. -/
def recPendingImg : AttRecord :=
  { student := "S1"
    date := 595
    status := Status.pending
    messageId := "mi1"
    location := {
      latitude := 0, longitude := 0, isWithinRadius := false,
      distanceFromCenter := some 999999, verifiedCenter := none, source := some "pending" }
    verification := {
      isVerified := false, verifiedBy := "system", verifiedAt := none,
      verificationMethod := VMethod.auto_geo, notes := none }
    images := [{ mediaId := some "MED1", exif := some metaNoGPS }] }

/-- Witness for the amended claim C2: a duplicate against a manually
absent record leaves the ledger unchanged, and a duplicate GPS-less
image against a pending record appends its entry a second time. -/
theorem claim2_witness :
    handleIncomingMessage distNear [centerMain] [recManualAbsent] studentS 600 msgImg
      = [recManualAbsent]
    ∧ lookupToday (handleIncomingMessage distNear [centerMain] [recPendingImg]
        studentS 600 (Msg.image "mi1" "MED1" 595 metaNoGPS)) studentS.sid 600 =
      some { recPendingImg with
        images := recPendingImg.images ++
          [{ mediaId := some "MED1", exif := some metaNoGPS }] } :=
  ⟨claim2_amended_no_messageid_dedup.1 distNear [centerMain] [recManualAbsent] studentS
      600 msgImg recManualAbsent rfl (by decide),
   claim2_amended_no_messageid_dedup.2 distNear [centerMain] [recPendingImg] studentS
      600 "mi1" "MED1" 595 metaNoGPS recPendingImg rfl rfl rfl rfl rfl⟩
